import Mathlib

/-!
Verification of the solderless-microlab recipe-task engine and its hardware
facade.

The hardware facade (backend/hardware/core.py) and the simulated temperature
controller (backend/hardware/temperaturecontroller/simulation.py) are embedded
directly from their sources.  The task coroutine library (recipes/tasks.py) is
not among the provided sources, only its tests are; its operations are
modelled from the specification (sections 3, 4.3 and 4.4) and each such
definition carries a doc comment starting with Modelled from the spec.
Real-valued quantities are embedded as rationals; where a behaviour depends
on the floating-point arithmetic the runtime performs (the under-range pump
scenario of section 8), the binary64 operations themselves are modelled
exactly, as rationals rounded to 53 significant bits with ties to even.
-/

/-- State of the simulated temperature controller, from
SimulatedTempController: the heating and cooling flags and the simulated
temperature (simulation.py lines 11 to 13). -/
structure SimState where
  heating : Bool
  cooling : Bool
  temperature : ℚ
deriving DecidableEq, Repr

/-- SimulatedTempController.turn_heater_on: sets the heating flag. -/
def tc_turn_heater_on (s : SimState) : SimState := { s with heating := true }

/-- SimulatedTempController.turn_heater_off: clears the heating flag. -/
def tc_turn_heater_off (s : SimState) : SimState := { s with heating := false }

/-- SimulatedTempController.turn_cooler_on: sets the cooling flag. -/
def tc_turn_cooler_on (s : SimState) : SimState := { s with cooling := true }

/-- SimulatedTempController.turn_cooler_off: clears the cooling flag. -/
def tc_turn_cooler_off (s : SimState) : SimState := { s with cooling := false }

/-- SimulatedTempController.get_temp (simulation.py lines 61 to 93): mutates
and returns the temperature.  The source first checks the sentinel
temperature == -1 (the first-time initialization branch) and resets to 24;
otherwise heating adds 1, else cooling subtracts 1, else the temperature
moves by 1/10 toward 24. -/
def sim_get_temp (s : SimState) : ℚ × SimState :=
  if s.temperature = -1 then (24, { s with temperature := 24 })
  else
    let delta : ℚ :=
      if s.heating then 1
      else if s.cooling then -1
      else if s.temperature > 24 then -(1/10)
      else if s.temperature < 24 then 1/10
      else 0
    (s.temperature + delta, { s with temperature := s.temperature + delta })

/-- SimulatedTempController.__init__ (simulation.py lines 6 to 13): flags start
false; the temperature is the configured temp parameter, or 24 when absent. -/
def simInit (cfgTemp : Option ℚ) : SimState :=
  { heating := false, cooling := false, temperature := cfgTemp.getD 24 }

/-- MicroLabHardware.turn_heater_on (core.py lines 155 to 163): first turns the
cooler off on the bound controller, then the heater on. -/
def turn_heater_on (s : SimState) : SimState :=
  tc_turn_heater_on (tc_turn_cooler_off s)

/-- MicroLabHardware.turn_heater_off (core.py lines 165 to 172). -/
def turn_heater_off (s : SimState) : SimState := tc_turn_heater_off s

/-- MicroLabHardware.turn_cooler_on (core.py lines 192 to 200): first turns the
heater off on the bound controller, then the cooler on. -/
def turn_cooler_on (s : SimState) : SimState :=
  tc_turn_cooler_on (tc_turn_heater_off s)

/-- MicroLabHardware.turn_cooler_off (core.py lines 202 to 209). -/
def turn_cooler_off (s : SimState) : SimState := tc_turn_cooler_off s

/-- MicroLabHardware.turn_off_everything (core.py lines 90 to 100): turns the
heater, heater pump, cooler and stirrer off.  The heater-pump and stirrer
operations do not touch the heating or cooling flags of the simulated
controller, so on this state the effect is heater off then cooler off. -/
def turn_off_everything (s : SimState) : SimState :=
  turn_cooler_off (turn_heater_off s)

/-- The facade operations that reach the bound temperature controller.  The
heater-pump operations are no-ops on the simulated flags (simulation.py lines
35 to 39) and reading the temperature only mutates the temperature field. -/
inductive FacadeOp
  | heaterOn
  | heaterOff
  | coolerOn
  | coolerOff
  | heaterPumpOn
  | heaterPumpOff
  | readTemp
  | offEverything
deriving DecidableEq, Repr

/-- Effect of one facade operation on the simulated controller state. -/
def applyOp (op : FacadeOp) (s : SimState) : SimState :=
  match op with
  | .heaterOn => turn_heater_on s
  | .heaterOff => turn_heater_off s
  | .coolerOn => turn_cooler_on s
  | .coolerOff => turn_cooler_off s
  | .heaterPumpOn => s
  | .heaterPumpOff => s
  | .readTemp => (sim_get_temp s).2
  | .offEverything => turn_off_everything s

/-- Running a sequence of facade operations from a state. -/
def runOps (ops : List FacadeOp) (s : SimState) : SimState :=
  ops.foldl (fun t op => applyOp op t) s

/-- Modelled from the spec: WaitSignal (section 3).  A task yield is either a
Wait carrying a duration or the single final Done. -/
inductive WS
  | wait (d : ℚ)
  | done
deriving DecidableEq, Repr

/-- Modelled from the spec: ExhaustedTaskError (sections 3 and 7), the error
raised when a task is pulled after it has yielded Done. -/
inductive TaskErr
  | exhausted
deriving DecidableEq, Repr

/-- Modelled from the spec: the yield sequence of a task (section 3) is a
finite list of Wait signals followed by exactly one Done. -/
def taskYields (waits : List ℚ) : List WS :=
  waits.map WS.wait ++ [WS.done]

/-- Modelled from the spec: pulling a task at a given pull index; pulling past
the end of the yield sequence fails with ExhaustedTaskError (section 3). -/
def pullAt (ys : List WS) (i : ℕ) : Except TaskErr WS :=
  match ys[i]? with
  | some s => .ok s
  | none => .error .exhausted

/-- PumpSpeedLimits (section 3 of the spec; queried through
MicroLabHardware.get_pump_limits, core.py lines 262 to 275). -/
structure PumpLimits where
  minSpeed : ℚ
  maxSpeed : ℚ
deriving DecidableEq, Repr

/-- One call to MicroLabHardware.pump_dispense (core.py lines 247 to 260): the
volume dispensed and the optional target duration. -/
structure DispenseCall where
  volume : ℚ
  duration : Option ℚ
deriving DecidableEq, Repr

/-- The observable outcome of a pump task that ran to Done: the list of Wait
durations it yielded (followed by a single Done per the task contract) and
the dispense calls it made, in order. -/
structure PumpRun where
  waits : List ℚ
  calls : List DispenseCall
deriving DecidableEq, Repr

/-- Modelled from the spec: InvalidPumpError (sections 4.3 and 7), raised on
the first pull when the pump id is not a configured channel. -/
inductive PumpErr
  | invalidPump
deriving DecidableEq, Repr

/-- Modelled from the spec: the under-range burst loop of section 4.4.  While
the remaining volume is at least one burst (burstVolume = minSpeed times one
second), dispense a one-second burst at minSpeed and yield
Wait(minSpeed/rate - 1 - execTime); afterwards, if a fractional remainder is
left, dispense it in a final call and yield Wait(remaining/rate).  The fuel
argument bounds the recursion; callers pass enough for the loop to finish. -/
def burstLoop (minSp rate : ℚ) (ex : ℕ → ℚ) : ℕ → ℕ → ℚ → List ℚ × List DispenseCall
  | 0, _, _ => ([], [])
  | fuel + 1, k, remaining =>
    if minSp ≤ remaining then
      let rest := burstLoop minSp rate ex fuel (k + 1) (remaining - minSp)
      ((minSp / rate - 1 - ex k) :: rest.1, ⟨minSp, some 1⟩ :: rest.2)
    else if 0 < remaining then
      ([remaining / rate], [⟨remaining, none⟩])
    else ([], [])

/-- Modelled from the spec: the pump task of sections 4.3 and 4.4
(recipes/tasks.py is not among the provided sources).  With no configured
limits for the channel the first pull fails with InvalidPumpError and nothing
is dispensed.  Otherwise rate = volume/time when time is given; with time
absent, or rate above maxSpeed, the full volume goes out in one call with no
target duration; with minSpeed <= rate <= maxSpeed it goes out in one call
targeting time; below minSpeed the burst loop runs.  The measured duration
returned by the single dispense call is the parameter measured, and ex k is
the uptime consumed by burst number k. -/
def pumpRun (limits : Option PumpLimits) (volume : ℚ) (time : Option ℚ)
    (measured : ℚ) (ex : ℕ → ℚ) : Except PumpErr PumpRun :=
  match limits with
  | none => .error .invalidPump
  | some lims =>
    match time with
    | none => .ok ⟨[measured], [⟨volume, none⟩]⟩
    | some t =>
      let rate := volume / t
      if lims.maxSpeed < rate then .ok ⟨[measured], [⟨volume, none⟩]⟩
      else if lims.minSpeed ≤ rate then .ok ⟨[measured], [⟨volume, some t⟩]⟩
      else
        let fuel := (⌈volume / lims.minSpeed⌉).toNat + 1
        let res := burstLoop lims.minSpeed rate ex fuel 0 volume
        .ok ⟨res.1, res.2⟩

/-- Number of full bursts the under-range loop performs on a given remaining
volume: the integer part of remaining/minSpeed. -/
def burstCount (minSp remaining : ℚ) : ℕ := (⌊remaining / minSp⌋).toNat

/-- Fractional volume left after all full bursts. -/
def burstFrac (minSp remaining : ℚ) : ℚ :=
  remaining - burstCount minSp remaining * minSp

/-- Closed form of the Wait durations produced by the under-range loop. -/
def burstSpecWaits (minSp rate : ℚ) (ex : ℕ → ℚ) (k : ℕ) (remaining : ℚ) :
    List ℚ :=
  ((List.range (burstCount minSp remaining)).map
      fun j => minSp / rate - 1 - ex (k + j)) ++
    (if 0 < burstFrac minSp remaining
      then [burstFrac minSp remaining / rate] else [])

/-- Closed form of the dispense calls made by the under-range loop. -/
def burstSpecCalls (minSp remaining : ℚ) : List DispenseCall :=
  List.replicate (burstCount minSp remaining) ⟨minSp, some 1⟩ ++
    (if 0 < burstFrac minSp remaining
      then [⟨burstFrac minSp remaining, none⟩] else [])

/-- Total volume passed to the dispenser across a list of calls. -/
def callVolumes (calls : List DispenseCall) : ℚ :=
  (calls.map DispenseCall.volume).sum

/-- Dispense calls made by a pump task, none when the task failed before
dispensing anything. -/
def dispenseLog (res : Except PumpErr PumpRun) : List DispenseCall :=
  match res with
  | .error _ => []
  | .ok r => r.calls

/-- Modelled from the spec: the polling interval of the heat and cool tasks
(section 4.3), an implementation-chosen positive constant. -/
def heatPoll : ℚ := 1

/-- Modelled from the spec: the first pull of heat(target) (section 4.3,
recipes/tasks.py not among the provided sources).  If the temperature reading
is at least the target, turn the heater off through the facade and yield
Done; otherwise turn the heater on through the facade (which first forces the
cooler off, core.py line 162) and yield a positive Wait. -/
def heatFirstPull (cur target : ℚ) (s : SimState) : WS × SimState :=
  if target ≤ cur then (WS.done, turn_heater_off s)
  else (WS.wait heatPoll, turn_heater_on s)

/-- Modelled from the spec: the first pull of cool(target), the mirror of
heat (section 4.3).  Turning the cooler on through the facade first forces
the heater off (core.py line 199). -/
def coolFirstPull (cur target : ℚ) (s : SimState) : WS × SimState :=
  if cur ≤ target then (WS.done, turn_cooler_off s)
  else (WS.wait heatPoll, turn_cooler_on s)

/-- Heater-circulation pump events observable from a maintain_pid task. -/
inductive PidEv
  | pumpOn
  | pumpOff
deriving DecidableEq, Repr

/-- Modelled from the spec: the pull sequence of maintain_pid (section 4.3),
recorded as the heater-pump events performed by each pull together with the
yielded signal.  On the first pull (index 0) the heater-circulation pump is
turned on and the timer starts at uptime u 0; each later pull either finishes
(turning the pump off and yielding Done) once u i - u 0 has reached the time
bound, or performs the PID duty-cycle work and yields a Wait.  The PID
arithmetic itself is abstracted into the wait-duration function w, which the
spec leaves open (section 9).  The fuel argument bounds the recursion. -/
def pidPulls (u w : ℕ → ℚ) (tlimit : ℚ) : ℕ → ℕ → List (List PidEv × WS)
  | 0, _ => []
  | fuel + 1, i =>
    if i = 0 then ([PidEv.pumpOn], WS.wait (w 0)) :: pidPulls u w tlimit fuel 1
    else if tlimit ≤ u i - u 0 then [([PidEv.pumpOff], WS.done)]
    else ([], WS.wait (w i)) :: pidPulls u w tlimit fuel (i + 1)

/-- A full maintain_pid run, starting from the first pull. -/
def pidRun (u w : ℕ → ℚ) (tlimit : ℚ) (fuel : ℕ) : List (List PidEv × WS) :=
  pidPulls u w tlimit fuel 0

/-- How many times a given heater-pump event occurs across a run. -/
def pidEvCount (e : PidEv) (ps : List (List PidEv × WS)) : ℕ :=
  (ps.map fun p => p.1.count e).sum

/-- MicroLabHardwareState (core.py lines 23 to 26). -/
inductive MLState
  | STARTING
  | INITIALIZED
  | FAILED_TO_START
deriving DecidableEq, Repr

/-- The fields of MicroLabHardware that load_hardware touches (core.py lines
38 to 41 and 69 to 88).  Device instances are abstracted as numeric tokens;
role bindings are Option because on a first load they are not yet set. -/
structure Facade where
  devices : List (String × ℕ)
  temp_controller : Option ℕ
  stirrer : Option ℕ
  reagent_dispenser : Option ℕ
  state : MLState
  error : Option String
deriving DecidableEq, Repr

/-- Python dict lookup on the device map; none models a KeyError. -/
def lookupDevice (devs : List (String × ℕ)) (key : String) : Option ℕ :=
  (devs.find? fun p => p.1 == key).map Prod.snd

/-- MicroLabHardware.load_hardware (core.py lines 69 to 88).  The body of the
try block assigns self.devices from setup_devices, then resolves the three
role bindings one by one; any exception (modelled: a setup_devices failure,
or a KeyError from a missing role, whose message is modelled as the missing
key) is caught, sets the state to FAILED_TO_START, retains the error and
returns (False, message).  setup_devices lives in hardware/devicelist.py,
which is not among the provided sources, so its outcome is the parameter
setup: either an exception message or the new device map. -/
def load_hardware (setup : Except String (List (String × ℕ))) (f : Facade) :
    (Bool × String) × Facade :=
  match setup with
  | .error e => ((false, e), { f with state := .FAILED_TO_START, error := some e })
  | .ok devs =>
    let f1 := { f with devices := devs }
    match lookupDevice devs "reactor-temperature-controller" with
    | none =>
      ((false, "reactor-temperature-controller"),
        { f1 with state := .FAILED_TO_START,
                  error := some "reactor-temperature-controller" })
    | some tc =>
      let f2 := { f1 with temp_controller := some tc }
      match lookupDevice devs "reactor-stirrer" with
      | none =>
        ((false, "reactor-stirrer"),
          { f2 with state := .FAILED_TO_START, error := some "reactor-stirrer" })
      | some st =>
        let f3 := { f2 with stirrer := some st }
        match lookupDevice devs "reactor-reagent-dispenser" with
        | none =>
          ((false, "reactor-reagent-dispenser"),
            { f3 with state := .FAILED_TO_START,
                      error := some "reactor-reagent-dispenser" })
        | some rd =>
          ((true, ""),
            { f3 with reagent_dispenser := some rd, state := .INITIALIZED })

/-- A facade in a previous valid state, used to exhibit the behaviour of a
failing reload. -/
def prevFacade : Facade :=
  { devices := [("reactor-temperature-controller", 10), ("reactor-stirrer", 11),
                ("reactor-reagent-dispenser", 12)],
    temp_controller := some 10, stirrer := some 11, reagent_dispenser := some 12,
    state := .INITIALIZED, error := none }

/-- Round a positive rational to the nearest binary64 floating-point value:
53-bit significand, round to nearest, ties to even.  The exponent is
unbounded (no overflow, infinities or subnormals), which is adequate for the
magnitudes reached by the pump arithmetic.  This models the arithmetic the
Python runtime performs on the spec quantities, which the under-range
scenario of section 8 depends on. -/
def roundPos (x : ℚ) : ℚ :=
  let s : ℤ := 52 - Int.log 2 x
  let y : ℚ := x * 2 ^ s
  let m : ℤ := ⌊y⌋
  let m2 : ℤ :=
    if y - m < 1 / 2 then m
    else if 1 / 2 < y - m then m + 1
    else if 2 ∣ m then m else m + 1
  (m2 : ℚ) * 2 ^ (-s)

/-- Binary64 rounding of any rational. -/
def roundQ (x : ℚ) : ℚ :=
  if x = 0 then 0
  else if 0 < x then roundPos x
  else -roundPos (-x)

/-- Binary64 subtraction: subtract exactly, then round. -/
def fsub (a b : ℚ) : ℚ := roundQ (a - b)

/-- Binary64 division: divide exactly, then round. -/
def fdiv (a b : ℚ) : ℚ := roundQ (a / b)

/-- Modelled from the spec: the under-range burst loop of section 4.4 with
the arithmetic the program actually performs, binary64 floating point: the
remaining volume is depleted with fsub and each wait is the float evaluation
of minSpeed/rate - 1 - execTime.  Identical in structure to burstLoop, which
is its exact-arithmetic idealization. -/
def burstLoopF (minSp rate : ℚ) (ex : ℕ → ℚ) : ℕ → ℕ → ℚ → List ℚ × List DispenseCall
  | 0, _, _ => ([], [])
  | fuel + 1, k, remaining =>
    if minSp ≤ remaining then
      let rest := burstLoopF minSp rate ex fuel (k + 1) (fsub remaining minSp)
      (fsub (fsub (fdiv minSp rate) 1) (ex k) :: rest.1, ⟨minSp, some 1⟩ :: rest.2)
    else if 0 < remaining then
      ([fdiv remaining rate], [⟨remaining, none⟩])
    else ([], [])

/-- Modelled from the spec: the pump task of section 4.4 over binary64
arithmetic (rate = fdiv volume time), mirroring pumpRun.  The recursion fuel
is an explicit parameter (the source while-loop has none); the theorems
below verify the runs it produces, and at the concrete scenario the supplied
fuel demonstrably suffices. -/
def pumpRunF (fuel : ℕ) (limits : Option PumpLimits) (volume : ℚ)
    (time : Option ℚ) (measured : ℚ) (ex : ℕ → ℚ) : Except PumpErr PumpRun :=
  match limits with
  | none => .error .invalidPump
  | some lims =>
    match time with
    | none => .ok ⟨[measured], [⟨volume, none⟩]⟩
    | some t =>
      let rate := fdiv volume t
      if lims.maxSpeed < rate then .ok ⟨[measured], [⟨volume, none⟩]⟩
      else if lims.minSpeed ≤ rate then .ok ⟨[measured], [⟨volume, some t⟩]⟩
      else
        let res := burstLoopF lims.minSpeed rate ex fuel 0 volume
        .ok ⟨res.1, res.2⟩

/-- The binary64 value of the literal 0.1, the minSpeed of the slow-dispense
scenario: 0.1 is not a dyadic rational, so the Python runtime stores the
nearest double, 3602879701896397 / 2^55. -/
def fl01 : ℚ := 3602879701896397 / 36028797018963968

/-- The simulated temperature read never changes the heating or cooling
flags. -/
lemma sim_get_temp_flags (s : SimState) :
    (sim_get_temp s).2.heating = s.heating ∧
    (sim_get_temp s).2.cooling = s.cooling := by
  unfold sim_get_temp
  split <;> simp

/-- Each facade operation preserves the heater-cooler exclusion invariant. -/
lemma applyOp_flags (op : FacadeOp) (s : SimState)
    (h : (s.heating && s.cooling) = false) :
    ((applyOp op s).heating && (applyOp op s).cooling) = false := by
  cases op <;>
    simp only [applyOp, turn_heater_on, turn_heater_off, turn_cooler_on,
      turn_cooler_off, turn_off_everything, tc_turn_heater_on,
      tc_turn_heater_off, tc_turn_cooler_on, tc_turn_cooler_off] <;>
    simp_all [sim_get_temp_flags s]

/-- Running any operation sequence preserves the exclusion invariant. -/
lemma runOps_flags (ops : List FacadeOp) :
    ∀ s : SimState, (s.heating && s.cooling) = false →
      ((runOps ops s).heating && (runOps ops s).cooling) = false := by
  induction ops with
  | nil => intro s h; exact h
  | cons op ops ih => intro s h; exact ih _ (applyOp_flags op s h)

/-- Claim C1: the facade enforces heater-cooler mutual exclusion centrally.
MicroLabHardware.turn_heater_on first turns the cooler off and then the
heater on (core.py lines 162 and 163), turn_cooler_on first turns the heater
off and then the cooler on (core.py lines 199 and 200), and after any
sequence of facade operations from the initial simulated-controller state the
heating and cooling flags are never both set. -/
theorem heater_cooler_mutual_exclusion :
    (∀ s : SimState, turn_heater_on s = tc_turn_heater_on (tc_turn_cooler_off s)) ∧
    (∀ s : SimState, turn_cooler_on s = tc_turn_cooler_on (tc_turn_heater_off s)) ∧
    (∀ (cfgTemp : Option ℚ) (ops : List FacadeOp),
      ((runOps ops (simInit cfgTemp)).heating &&
        (runOps ops (simInit cfgTemp)).cooling) = false) :=
  ⟨fun _ => rfl, fun _ => rfl,
    fun cfgTemp ops => runOps_flags ops (simInit cfgTemp) rfl⟩

/-- Claim C10 (code-bug evidence): SimulatedTempController.get_temp does not
always apply the documented delta.  When the stored temperature is exactly -1
the first-time initialization sentinel (simulation.py lines 72 and 73) resets
it to 24 regardless of the flags, so with the heating flag set the read
returns 24 instead of 0 = -1 + 1.  The state temperature = -1 is reachable
from the default start of 24 by turning the cooler on and reading 25 times;
the 26th read then jumps back to 24 even though the cooler is still on. -/
theorem sim_get_temp_sentinel_resets :
    (runOps (FacadeOp.coolerOn :: List.replicate 25 FacadeOp.readTemp)
        (simInit none)).temperature = -1 ∧
    (sim_get_temp { heating := true, cooling := false, temperature := -1 }).1 = 24 ∧
    ((24 : ℚ) ≠ -1 + 1) ∧
    (runOps (FacadeOp.coolerOn :: List.replicate 26 FacadeOp.readTemp)
        (simInit none)).temperature = 24 := by
  refine ⟨?_, ?_, ?_, ?_⟩ <;>
    norm_num [runOps, List.replicate, applyOp, sim_get_temp, simInit,
      turn_cooler_on, tc_turn_cooler_on, tc_turn_heater_off]

/-- A full burst decrements the burst count by one. -/
lemma burstCount_step (m r : ℚ) (hm : 0 < m) (hr : m ≤ r) :
    burstCount m r = burstCount m (r - m) + 1 := by
  have hdiv : (r - m) / m = r / m - 1 := by
    rw [sub_div, div_self hm.ne']
  have h1 : (1 : ℤ) ≤ ⌊r / m⌋ := by
    rw [Int.le_floor]
    exact_mod_cast (one_le_div hm).mpr hr
  unfold burstCount
  rw [hdiv]
  have : ⌊r / m - 1⌋ = ⌊r / m⌋ - 1 := by
    exact_mod_cast Int.floor_sub_int (r / m) 1
  rw [this]
  omega

/-- A full burst leaves the fractional remainder unchanged. -/
lemma burstFrac_step (m r : ℚ) (hm : 0 < m) (hr : m ≤ r) :
    burstFrac m r = burstFrac m (r - m) := by
  unfold burstFrac
  rw [burstCount_step m r hm hr]
  push_cast
  ring

/-- Below one burst the burst count is zero. -/
lemma burstCount_eq_zero (m r : ℚ) (hm : 0 < m) (h0 : 0 ≤ r) (hr : r < m) :
    burstCount m r = 0 := by
  unfold burstCount
  have : ⌊r / m⌋ = 0 := by
    rw [Int.floor_eq_zero_iff]
    exact ⟨div_nonneg h0 hm.le, (div_lt_one hm).mpr hr⟩
  simp [this]

/-- Peeling one burst off the closed-form wait list. -/
lemma burstSpecWaits_cons (m rate : ℚ) (ex : ℕ → ℚ) (k : ℕ) (r : ℚ)
    (hm : 0 < m) (hr : m ≤ r) :
    burstSpecWaits m rate ex k r =
      (m / rate - 1 - ex k) :: burstSpecWaits m rate ex (k + 1) (r - m) := by
  unfold burstSpecWaits
  rw [burstCount_step m r hm hr, burstFrac_step m r hm hr,
    List.range_succ_eq_map, List.map_cons, List.map_map]
  simp only [Nat.add_zero, List.cons_append]
  congr 1
  congr 1
  apply List.map_congr_left
  intro j hj
  have h : k + Nat.succ j = k + 1 + j := by omega
  simp [Function.comp, h]

/-- Peeling one burst off the closed-form call list. -/
lemma burstSpecCalls_cons (m r : ℚ) (hm : 0 < m) (hr : m ≤ r) :
    burstSpecCalls m r = ⟨m, some 1⟩ :: burstSpecCalls m (r - m) := by
  unfold burstSpecCalls
  rw [burstCount_step m r hm hr, burstFrac_step m r hm hr,
    List.replicate_succ, List.cons_append]

/-- The under-range loop computes its closed form whenever it is given enough
fuel to finish. -/
lemma burstLoop_eq (minSp rate : ℚ) (ex : ℕ → ℚ) (hm : 0 < minSp) :
    ∀ (fuel k : ℕ) (remaining : ℚ), 0 ≤ remaining →
      remaining ≤ minSp * fuel →
      burstLoop minSp rate ex fuel k remaining =
        (burstSpecWaits minSp rate ex k remaining,
          burstSpecCalls minSp remaining) := by
  intro fuel
  induction fuel with
  | zero =>
    intro k remaining h0 hle
    have hz : remaining = 0 := le_antisymm (by simp at hle; exact hle) h0
    subst hz
    simp [burstLoop, burstSpecWaits, burstSpecCalls, burstCount, burstFrac]
  | succ fuel ih =>
    intro k remaining h0 hle
    by_cases hr : minSp ≤ remaining
    · have hsub0 : 0 ≤ remaining - minSp := sub_nonneg.mpr hr
      have hsuble : remaining - minSp ≤ minSp * fuel := by
        have : remaining ≤ minSp * fuel + minSp := by
          calc remaining ≤ minSp * (fuel + 1 : ℕ) := hle
          _ = minSp * fuel + minSp := by push_cast; ring
        linarith
      simp only [burstLoop, if_pos hr]
      rw [ih (k + 1) (remaining - minSp) hsub0 hsuble,
        burstSpecWaits_cons minSp rate ex k remaining hm hr,
        burstSpecCalls_cons minSp remaining hm hr]
    · have hlt : remaining < minSp := lt_of_not_le hr
      have hc0 : burstCount minSp remaining = 0 :=
        burstCount_eq_zero minSp remaining hm h0 hlt
      have hfrac : burstFrac minSp remaining = remaining := by
        unfold burstFrac
        rw [hc0]
        push_cast
        ring
      simp only [burstLoop, if_neg hr]
      by_cases h1 : 0 < remaining
      · simp [burstSpecWaits, burstSpecCalls, hc0, hfrac, h1]
      · simp [burstSpecWaits, burstSpecCalls, hc0, hfrac, h1]

/-- The fuel that pumpRun hands the burst loop is always sufficient. -/
lemma pump_fuel_sufficient (m v : ℚ) (hm : 0 < m) :
    v ≤ m * (((⌈v / m⌉).toNat + 1 : ℕ) : ℚ) := by
  have h1 : v / m ≤ ((⌈v / m⌉ : ℤ) : ℚ) := Int.le_ceil (v / m)
  have h2 : (⌈v / m⌉ : ℤ) ≤ ((⌈v / m⌉).toNat : ℤ) := Int.self_le_toNat _
  have h3 : v / m ≤ (((⌈v / m⌉).toNat + 1 : ℕ) : ℚ) := by
    calc v / m ≤ ((⌈v / m⌉ : ℤ) : ℚ) := h1
    _ ≤ (((⌈v / m⌉).toNat : ℤ) : ℚ) := by exact_mod_cast h2
    _ ≤ (((⌈v / m⌉).toNat + 1 : ℕ) : ℚ) := by push_cast; linarith
  calc v = v / m * m := by field_simp
  _ ≤ (((⌈v / m⌉).toNat + 1 : ℕ) : ℚ) * m := by
    exact mul_le_mul_of_nonneg_right h3 hm.le
  _ = m * (((⌈v / m⌉).toNat + 1 : ℕ) : ℚ) := mul_comm _ _

/-- Closed form of the exact-rational under-range run: with rate strictly
below minSpeed, the waits are the full-burst formula waits followed by a
fractional wait exactly when the volume is not an integer multiple of
burstVolume.  This is the idealized-arithmetic counterpart of the binary64
behaviour established further below. -/
theorem pump_under_range_waits (m M v t md : ℚ) (ex : ℕ → ℚ)
    (hm : 0 < m) (hv : 0 ≤ v) (hr : v / t < m) (hM : v / t ≤ M) :
    pumpRun (some ⟨m, M⟩) v (some t) md ex =
      .ok ⟨burstSpecWaits m (v / t) ex 0 v, burstSpecCalls m v⟩ := by
  unfold pumpRun
  dsimp only
  rw [if_neg (not_lt.mpr hM), if_neg (not_le.mpr hr)]
  rw [burstLoop_eq m (v / t) ex hm _ 0 v hv (pump_fuel_sufficient m v hm)]

/-- Direct evaluation of the under-range scenario volume 5, time 4, minSpeed
2, maxSpeed 5 with zero exec times: two full-burst Waits of 3/5, a
fractional Wait of 4/5, and dispense calls of 2, 2 and 1 ml. -/
lemma pumpRun_burst_example :
    pumpRun (some ⟨2, 5⟩) 5 (some 4) 0 (fun _ => 0) =
      .ok ⟨[3/5, 3/5, 4/5], [⟨2, some 1⟩, ⟨2, some 1⟩, ⟨1, none⟩]⟩ := by
  have hc : (⌈(5 : ℚ) / 2⌉) = 3 := by
    rw [Int.ceil_eq_iff]
    constructor <;> norm_num
  have h3 : Int.toNat 3 = 3 := rfl
  unfold pumpRun
  dsimp only
  rw [if_neg (by norm_num), if_neg (by norm_num), hc, h3]
  norm_num [burstLoop]

/-- Instance of pump_under_range_waits: the scenario volume 5, time 4,
minSpeed 2, maxSpeed 5 gives two full-burst Waits of 3/5 and a fractional
Wait of 4/5. -/
theorem pump_under_range_waits_witness :
    pumpRun (some ⟨2, 5⟩) 5 (some 4) 0 (fun _ => 0) =
      .ok ⟨[3/5, 3/5, 4/5], [⟨2, some 1⟩, ⟨2, some 1⟩, ⟨1, none⟩]⟩ := by
  rw [pump_under_range_waits 2 5 5 4 0 (fun _ => 0) (by norm_num) (by norm_num)
    (by norm_num) (by norm_num)]
  have h2 : Int.toNat 2 = 2 := rfl
  norm_num [burstSpecWaits, burstSpecCalls, burstCount, burstFrac, List.range_succ,
    h2, List.replicate]

/-- Contrast with the binary64 run: in the exact-rational idealization the
same scenario, pump(X, volume 1, time 100) with minSpeed exactly 1/10 and
zero exec times, yields exactly ten Wait(9) pulls and then Done, with no
fractional pull: 1 is an exact multiple of 1/10, while binary64 arithmetic
leaves the nonzero residue that produces the eleventh Wait pull seen in the
reference test. -/
theorem pumpRun_rational_slow_dispense :
    pumpRun (some ⟨1/10, 1⟩) 1 (some 100) 0 (fun _ => 0) =
      .ok ⟨List.replicate 10 9, List.replicate 10 ⟨1/10, some 1⟩⟩ ∧
    (List.replicate 10 (9 : ℚ)).length = 10 := by
  constructor
  · have hc : (⌈(1 : ℚ) / (1 / 10)⌉) = 10 := by
      rw [Int.ceil_eq_iff]
      constructor <;> norm_num
    have h10 : Int.toNat 10 = 10 := rfl
    unfold pumpRun
    dsimp only
    rw [if_neg (by norm_num), if_neg (by norm_num), hc, h10]
    norm_num [burstLoop, List.replicate]
  · simp

/-- The fractional remainder is never negative. -/
lemma burstFrac_nonneg (m v : ℚ) (hm : 0 < m) (hv : 0 ≤ v) :
    0 ≤ burstFrac m v := by
  unfold burstFrac burstCount
  have h0 : (0 : ℤ) ≤ ⌊v / m⌋ := Int.floor_nonneg.mpr (div_nonneg hv hm.le)
  have hcast : (((⌊v / m⌋).toNat : ℕ) : ℚ) = ((⌊v / m⌋ : ℤ) : ℚ) := by
    exact_mod_cast Int.toNat_of_nonneg h0
  rw [hcast]
  have hfl : ((⌊v / m⌋ : ℤ) : ℚ) ≤ v / m := Int.floor_le (v / m)
  have := (le_div_iff₀ hm).mp hfl
  linarith

/-- The closed-form calls always sum to the full remaining volume. -/
lemma callVolumes_burstSpec (m v : ℚ) (hm : 0 < m) (hv : 0 ≤ v) :
    callVolumes (burstSpecCalls m v) = v := by
  unfold callVolumes burstSpecCalls
  have hfrac := burstFrac_nonneg m v hm hv
  by_cases h : 0 < burstFrac m v
  · simp only [if_pos h, List.map_append, List.sum_append, List.map_replicate,
      List.sum_replicate, List.map_cons, List.map_nil, List.sum_cons,
      List.sum_nil, smul_eq_mul]
    unfold burstFrac
    ring
  · have hz : burstFrac m v = 0 := le_antisymm (not_lt.mp h) hfrac
    simp only [if_neg h, List.append_nil, List.map_replicate,
      List.sum_replicate, nsmul_eq_mul]
    have : v - burstCount m v * m = 0 := hz
    linarith

/-- Claim C3: pump volume conservation.  Whatever branch the pump task takes,
the volumes passed to the dispenser across all dispense calls sum to exactly
the requested volume (hence certainly within the claimed 1e-6 tolerance). -/
theorem pump_volume_conservation (m M v : ℚ) (t : Option ℚ) (md : ℚ)
    (ex : ℕ → ℚ) (r : PumpRun) (hm : 0 < m) (hv : 0 ≤ v)
    (h : pumpRun (some ⟨m, M⟩) v t md ex = .ok r) :
    callVolumes r.calls = v := by
  cases t with
  | none =>
    unfold pumpRun at h
    simp only [Except.ok.injEq] at h
    subst h
    simp [callVolumes]
  | some t =>
    unfold pumpRun at h
    dsimp only at h
    split_ifs at h with h1 h2
    · simp only [Except.ok.injEq] at h
      subst h
      simp [callVolumes]
    · simp only [Except.ok.injEq] at h
      subst h
      simp [callVolumes]
    · rw [burstLoop_eq m (v / t) ex hm _ 0 v hv
        (pump_fuel_sufficient m v hm)] at h
      simp only [Except.ok.injEq] at h
      subst h
      exact callVolumes_burstSpec m v hm hv

/-- Witness for pump_volume_conservation: the under-range run with volume 5
dispenses 2 + 2 + 1 = 5. -/
theorem pump_volume_conservation_witness :
    callVolumes [⟨2, some 1⟩, ⟨2, some 1⟩, ⟨(1 : ℚ), none⟩] = 5 :=
  pump_volume_conservation 2 5 5 (some 4) 0 (fun _ => 0)
    ⟨[3/5, 3/5, 4/5], [⟨2, some 1⟩, ⟨2, some 1⟩, ⟨1, none⟩]⟩
    (by norm_num) (by norm_num) pumpRun_burst_example

/-- Claim C7: in-range and over-range pump branches.  With time absent, or
with rate = volume/time above maxSpeed, the task makes exactly one dispense
call for the full volume with no target duration; with minSpeed <= rate <=
maxSpeed, exactly one call for the full volume targeting time; in all three
cases it yields exactly one Wait carrying the measured dispense duration
(the wait list is the singleton [measured]) and then Done. -/
theorem pump_single_call_branches (m M v t md : ℚ) (ex : ℕ → ℚ) :
    (pumpRun (some ⟨m, M⟩) v none md ex = .ok ⟨[md], [⟨v, none⟩]⟩) ∧
    (M < v / t →
      pumpRun (some ⟨m, M⟩) v (some t) md ex = .ok ⟨[md], [⟨v, none⟩]⟩) ∧
    (m ≤ v / t → v / t ≤ M →
      pumpRun (some ⟨m, M⟩) v (some t) md ex = .ok ⟨[md], [⟨v, some t⟩]⟩) := by
  refine ⟨rfl, fun h => ?_, fun h1 h2 => ?_⟩
  · unfold pumpRun
    dsimp only
    rw [if_pos h]
  · unfold pumpRun
    dsimp only
    rw [if_neg (not_lt.mpr h2), if_pos h1]

/-- Witness for pump_single_call_branches: the reference-test inputs.  Over
range: volume 10 in 1 second against maxSpeed 5 goes out in one untimed
call; in range: volume 5 in 5 seconds at minSpeed 1 goes out in one call
targeting 5 seconds. -/
theorem pump_single_call_branches_witness :
    pumpRun (some ⟨1, 5⟩) 10 (some 1) (314/100) (fun _ => 0) =
      .ok ⟨[314/100], [⟨10, none⟩]⟩ ∧
    pumpRun (some ⟨1, 5⟩) 5 (some 5) (5/2) (fun _ => 0) =
      .ok ⟨[5/2], [⟨5, some 5⟩]⟩ :=
  ⟨(pump_single_call_branches 1 5 10 1 (314/100) (fun _ => 0)).2.1 (by norm_num),
    (pump_single_call_branches 1 5 5 5 (5/2) (fun _ => 0)).2.2 (by norm_num)
      (by norm_num)⟩

/-- Claim C8: a pump task whose channel has no configured limits fails with
InvalidPumpError on its first pull and makes no dispense call.  Construction
itself cannot fail: the task body, including the limits lookup, only runs
when first pulled. -/
theorem pump_invalid_pump_id (v : ℚ) (t : Option ℚ) (md : ℚ) (ex : ℕ → ℚ) :
    pumpRun none v t md ex = .error PumpErr.invalidPump ∧
    dispenseLog (pumpRun none v t md ex) = [] :=
  ⟨rfl, rfl⟩

/-- Index lookup into a task yield sequence: a Wait below the wait count, the
single Done exactly at the wait count, nothing beyond. -/
lemma taskYields_getElem (waits : List ℚ) (i : ℕ) :
    (taskYields waits)[i]? =
      if h : i < waits.length then some (WS.wait waits[i])
      else if i = waits.length then some WS.done
      else none := by
  unfold taskYields
  rw [List.getElem?_append]
  simp only [List.length_map]
  rcases lt_trichotomy i waits.length with h | h | h
  · simp [h, List.getElem?_map, List.getElem?_eq_getElem h]
  · subst h
    simp
  · have h1 : ¬ i < waits.length := by omega
    have h2 : ¬ i = waits.length := by omega
    have h3 : ([WS.done] : List WS)[i - waits.length]? = none := by
      rw [List.getElem?_eq_none]
      simp only [List.length_singleton]
      omega
    simp [h1, h2, h3]

/-- Claim C9: a task yields Done exactly once, at the pull following its last
Wait, and every pull after that fails with ExhaustedTaskError.  All modelled
task kinds produce their yield sequence through taskYields (a list of Waits
followed by a single Done), so they are never restartable. -/
theorem task_done_once_then_exhausted (waits : List ℚ) (i : ℕ) :
    (pullAt (taskYields waits) i = .ok WS.done ↔ i = waits.length) ∧
    (waits.length < i → pullAt (taskYields waits) i = .error TaskErr.exhausted) := by
  unfold pullAt
  rw [taskYields_getElem]
  constructor
  · constructor
    · intro h
      by_cases h1 : i < waits.length
      · simp [dif_pos h1] at h
      · by_cases h2 : i = waits.length
        · exact h2
        · simp [dif_neg h1, if_neg h2] at h
    · intro h
      subst h
      simp
  · intro h
    have h1 : ¬ i < waits.length := by omega
    have h2 : ¬ i = waits.length := by omega
    simp [dif_neg h1, if_neg h2]

/-- Witness for task_done_once_then_exhausted: a task with two Waits yields
Done on pull 2 and fails with ExhaustedTaskError on pull 3. -/
theorem task_done_once_then_exhausted_witness :
    pullAt (taskYields [9, 0]) 2 = .ok WS.done ∧
    pullAt (taskYields [9, 0]) 3 = .error TaskErr.exhausted :=
  ⟨(task_done_once_then_exhausted [9, 0] 2).1.mpr (by simp),
    (task_done_once_then_exhausted [9, 0] 3).2 (by simp)⟩

/-- Claim C4 counterexample: the cooler is not untouched on a heating pull.
Starting with the cooler flag on (reachable: a cool task left it on) and a
reading of 18 against target 30, the first pull of heat yields a Wait but
flips the cooling flag from true to false, because the task turns the heater
on through the facade and MicroLabHardware.turn_heater_on first turns the
cooler off (core.py line 162). -/
theorem heat_first_pull_cooler_not_untouched :
    (heatFirstPull 18 30 ⟨false, true, 18⟩).1 = WS.wait heatPoll ∧
    (⟨false, true, 18⟩ : SimState).cooling = true ∧
    (heatFirstPull 18 30 ⟨false, true, 18⟩).2.cooling = false := by
  refine ⟨?_, rfl, ?_⟩ <;>
    norm_num [heatFirstPull, turn_heater_on, tc_turn_heater_on, tc_turn_cooler_off]

/-- Claim C4 (amended): for every reading cur and target, the first pull of
heat yields Done iff cur is at least the target, and then the heater is off
and the cooler untouched; otherwise the heater is on, the cooler is forced
off by the facade, and a positive Wait is returned.  cool is the mirror:
Done iff cur is at most the target, with the cooler off and the heater
untouched; otherwise the cooler on, the heater forced off, positive Wait. -/
theorem heat_cool_first_pull (cur target : ℚ) (s : SimState) :
    ((heatFirstPull cur target s).1 = WS.done ↔ target ≤ cur) ∧
    (target ≤ cur →
      (heatFirstPull cur target s).2.heating = false ∧
      (heatFirstPull cur target s).2.cooling = s.cooling) ∧
    (cur < target →
      (heatFirstPull cur target s).1 = WS.wait heatPoll ∧ 0 < heatPoll ∧
      (heatFirstPull cur target s).2.heating = true ∧
      (heatFirstPull cur target s).2.cooling = false) ∧
    ((coolFirstPull cur target s).1 = WS.done ↔ cur ≤ target) ∧
    (cur ≤ target →
      (coolFirstPull cur target s).2.cooling = false ∧
      (coolFirstPull cur target s).2.heating = s.heating) ∧
    (target < cur →
      (coolFirstPull cur target s).1 = WS.wait heatPoll ∧ 0 < heatPoll ∧
      (coolFirstPull cur target s).2.cooling = true ∧
      (coolFirstPull cur target s).2.heating = false) := by
  unfold heatFirstPull coolFirstPull
  refine ⟨?_, ?_, ?_, ?_, ?_, ?_⟩
  · by_cases h : target ≤ cur
    · simp [if_pos h, h]
    · simp [if_neg h, h]
  · intro h
    simp [if_pos h, turn_heater_off, tc_turn_heater_off]
  · intro h
    rw [if_neg (not_le.mpr h)]
    refine ⟨rfl, by norm_num [heatPoll], ?_, ?_⟩ <;>
      simp [turn_heater_on, tc_turn_heater_on, tc_turn_cooler_off]
  · by_cases h : cur ≤ target
    · simp [if_pos h, h]
    · simp [if_neg h, h]
  · intro h
    simp [if_pos h, turn_cooler_off, tc_turn_cooler_off]
  · intro h
    rw [if_neg (not_le.mpr h)]
    refine ⟨rfl, by norm_num [heatPoll], ?_, ?_⟩ <;>
      simp [turn_cooler_on, tc_turn_cooler_on, tc_turn_heater_off]

/-- Witness for heat_cool_first_pull: the reference scenarios.  Reading 42
against target 30 finishes heat at once with the heater off; reading 18
against target 30 finishes cool at once with the cooler off. -/
theorem heat_cool_first_pull_witness :
    (heatFirstPull 42 30 ⟨false, false, 42⟩).2.heating = false ∧
    (coolFirstPull 18 30 ⟨false, false, 18⟩).2.cooling = false :=
  ⟨((heat_cool_first_pull 42 30 ⟨false, false, 42⟩).2.1 (by norm_num)).1,
    ((heat_cool_first_pull 18 30 ⟨false, false, 18⟩).2.2.2.2.1 (by norm_num)).1⟩

/-- From any pull index past the first, a maintain_pid run is some waiting
pulls without heater-pump events followed by a single completing pull that
turns the heater pump off and yields Done, provided the time bound is
reached within the available fuel. -/
lemma pidPulls_tail (u w : ℕ → ℚ) (tlimit : ℚ) :
    ∀ (fuel i : ℕ), 1 ≤ i →
      (∃ j, i ≤ j ∧ j < i + fuel ∧ tlimit ≤ u j - u 0) →
      ∃ mid, pidPulls u w tlimit fuel i = mid ++ [([PidEv.pumpOff], WS.done)] ∧
        ∀ p ∈ mid, p.1 = [] ∧ ∃ d, p.2 = WS.wait d := by
  intro fuel
  induction fuel with
  | zero =>
    intro i hi hj
    obtain ⟨j, h1, h2, _⟩ := hj
    omega
  | succ fuel ih =>
    intro i hi hj
    have hne : ¬ i = 0 := by omega
    by_cases hc : tlimit ≤ u i - u 0
    · refine ⟨[], ?_, by simp⟩
      simp [pidPulls, hne, hc]
    · obtain ⟨j, h1, h2, h3⟩ := hj
      have hji : ¬ j = i := fun he => hc (he ▸ h3)
      obtain ⟨mid, hmid, hall⟩ := ih (i + 1) (by omega) ⟨j, by omega, by omega, h3⟩
      refine ⟨([], WS.wait (w i)) :: mid, ?_, ?_⟩
      · simp [pidPulls, hne, hc, hmid]
      · intro p hp
        rcases List.mem_cons.mp hp with h | h
        · subst h
          exact ⟨rfl, w i, rfl⟩
        · exact hall p h

/-- Claim C5: over a whole maintain_pid invocation whose time bound is
reached at some pull N within the fuel, the heater-circulation pump is
turned on exactly once and off exactly once; the run is the first pull
(pump on, Wait), then pulls with no heater-pump events (all Waits), then
the completing pull (pump off, Done). -/
theorem maintain_pid_pump_transitions (u w : ℕ → ℚ) (tlimit : ℚ) (fuel N : ℕ)
    (hN : 1 ≤ N) (hfuel : N < fuel) (hc : tlimit ≤ u N - u 0) :
    pidEvCount PidEv.pumpOn (pidRun u w tlimit fuel) = 1 ∧
    pidEvCount PidEv.pumpOff (pidRun u w tlimit fuel) = 1 ∧
    ∃ mid, pidRun u w tlimit fuel =
        ([PidEv.pumpOn], WS.wait (w 0)) :: (mid ++ [([PidEv.pumpOff], WS.done)]) ∧
      ∀ p ∈ mid, p.1 = [] ∧ ∃ d, p.2 = WS.wait d := by
  obtain ⟨fuel, rfl⟩ : ∃ f, fuel = f + 1 := ⟨fuel - 1, by omega⟩
  obtain ⟨mid, hmid, hall⟩ :=
    pidPulls_tail u w tlimit fuel 1 le_rfl ⟨N, by omega, by omega, hc⟩
  have hrun : pidRun u w tlimit (fuel + 1) =
      ([PidEv.pumpOn], WS.wait (w 0)) :: (mid ++ [([PidEv.pumpOff], WS.done)]) := by
    unfold pidRun
    simp [pidPulls, hmid]
  have hmidcount : ∀ e, (mid.map fun p => p.1.count e).sum = 0 := by
    intro e
    apply List.sum_eq_zero
    intro x hx
    obtain ⟨p, hp, hpe⟩ := List.mem_map.mp hx
    rw [← hpe, (hall p hp).1]
    simp
  refine ⟨?_, ?_, mid, hrun, hall⟩
  · rw [hrun]
    unfold pidEvCount
    simp [List.map_append, List.sum_append, hmidcount PidEv.pumpOn]
  · rw [hrun]
    unfold pidEvCount
    simp [List.map_append, List.sum_append, hmidcount PidEv.pumpOff]

/-- Witness for maintain_pid_pump_transitions: uptime advancing one second a
pull, a sixty-second bound scaled to 2, fuel 3: one pump-on and one pump-off
event over the whole run. -/
theorem maintain_pid_pump_transitions_witness :
    pidEvCount PidEv.pumpOn (pidRun (fun i => (i : ℚ)) (fun _ => 1) 2 3) = 1 ∧
    pidEvCount PidEv.pumpOff (pidRun (fun i => (i : ℚ)) (fun _ => 1) 2 3) = 1 :=
  ⟨(maintain_pid_pump_transitions (fun i => (i : ℚ)) (fun _ => 1) 2 3 2
      (by norm_num) (by norm_num) (by norm_num)).1,
    (maintain_pid_pump_transitions (fun i => (i : ℚ)) (fun _ => 1) 2 3 2
      (by norm_num) (by norm_num) (by norm_num)).2.1⟩

/-- Claim C6 counterexample: a failing load is not all-or-nothing.  Reloading
a previously valid facade with a device set that has a temperature controller
but no reactor-stirrer returns failure, sets FAILED_TO_START and retains the
error, yet leaves mixed bindings: temp_controller is already rebound to the
new device (1, previously 10) while stirrer still holds the previous device
(11), which does not exist in the new configuration.  The bindings are
neither all from the new configuration nor unchanged from the previous valid
state, because core.py lines 78 to 81 mutate self.devices and the role
attributes one by one inside the try block. -/
theorem load_hardware_partial_bindings :
    ((load_hardware (.ok [("reactor-temperature-controller", 1)]) prevFacade).1.1
      = false) ∧
    (load_hardware (.ok [("reactor-temperature-controller", 1)]) prevFacade).2.state
      = MLState.FAILED_TO_START ∧
    (load_hardware (.ok [("reactor-temperature-controller", 1)]) prevFacade).2.error
      = some "reactor-stirrer" ∧
    (load_hardware (.ok [("reactor-temperature-controller", 1)]) prevFacade).2.temp_controller
      = some 1 ∧
    prevFacade.temp_controller = some 10 ∧
    (load_hardware (.ok [("reactor-temperature-controller", 1)]) prevFacade).2.stirrer
      = prevFacade.stirrer ∧
    lookupDevice
      (load_hardware (.ok [("reactor-temperature-controller", 1)]) prevFacade).2.devices
      "reactor-stirrer" = none := by
  refine ⟨?_, ?_, ?_, ?_, ?_, ?_, ?_⟩ <;> decide

/-- Claim C6 (amended): whenever load_hardware fails it returns failure, the
state becomes FAILED_TO_START and the error message is retained for
diagnostics; and when setup_devices itself is what failed, the device map
and all role bindings are left unchanged.  (When a role lookup fails after
setup_devices succeeded, bindings resolved before the failure point are
already replaced, as the counterexample shows.) -/
theorem load_hardware_failure_state (setup : Except String (List (String × ℕ)))
    (f : Facade) (h : (load_hardware setup f).1.1 = false) :
    (load_hardware setup f).2.state = MLState.FAILED_TO_START ∧
    (load_hardware setup f).2.error = some (load_hardware setup f).1.2 ∧
    (∀ e, setup = .error e →
      (load_hardware setup f).2.devices = f.devices ∧
      (load_hardware setup f).2.temp_controller = f.temp_controller ∧
      (load_hardware setup f).2.stirrer = f.stirrer ∧
      (load_hardware setup f).2.reagent_dispenser = f.reagent_dispenser) := by
  cases setup with
  | error e =>
    exact ⟨rfl, rfl, fun e2 he => ⟨rfl, rfl, rfl, rfl⟩⟩
  | ok devs =>
    revert h
    unfold load_hardware
    dsimp only
    rcases lookupDevice devs "reactor-temperature-controller" with _ | tc
    · exact fun h => ⟨rfl, rfl, fun e2 he => by cases he⟩
    · rcases lookupDevice devs "reactor-stirrer" with _ | st
      · exact fun h => ⟨rfl, rfl, fun e2 he => by cases he⟩
      · rcases lookupDevice devs "reactor-reagent-dispenser" with _ | rd
        · exact fun h => ⟨rfl, rfl, fun e2 he => by cases he⟩
        · intro h
          simp at h

/-- Witness for load_hardware_failure_state: a setup_devices failure leaves
the previous facade bindings in place and records the failed state. -/
theorem load_hardware_failure_state_witness :
    (load_hardware (.error "device failure") prevFacade).2.state
      = MLState.FAILED_TO_START ∧
    (load_hardware (.error "device failure") prevFacade).2.stirrer
      = prevFacade.stirrer :=
  ⟨(load_hardware_failure_state (.error "device failure") prevFacade rfl).1,
    ((load_hardware_failure_state (.error "device failure") prevFacade rfl).2.2
      "device failure" rfl).2.2.1⟩

/-- Characterization of roundPos: if m over 2 to the s is in binary64 range
(normalized significand between 2^52 and 2^53) and is the nearest such value
to x (strictly nearest, or an exact tie with m even), then roundPos x picks
it.  This lets each concrete rounding be certified by plain rational
inequalities. -/
lemma roundPos_eq (x : ℚ) (m : ℤ) (s : ℕ) (hx : 0 < x)
    (h1 : (2 : ℚ) ^ 52 ≤ x * 2 ^ s) (h2 : x * 2 ^ s < 2 ^ 53)
    (h3 : (-(1 / 2) < x * 2 ^ s - m ∧ x * 2 ^ s - m < 1 / 2) ∨
      ((x * 2 ^ s - m = 1 / 2 ∨ x * 2 ^ s - m = -(1 / 2)) ∧ 2 ∣ m)) :
    roundPos x = m / 2 ^ s := by
  have hs2 : (0 : ℚ) < 2 ^ s := by positivity
  have hpow52 : (2 : ℚ) ^ ((52 : ℤ) - s) * 2 ^ s = 2 ^ (52 : ℕ) := by
    rw [← zpow_natCast (2 : ℚ) s, ← zpow_add₀ (by norm_num : (2 : ℚ) ≠ 0)]
    norm_num
  have hpow53 : (2 : ℚ) ^ ((53 : ℤ) - s) * 2 ^ s = 2 ^ (53 : ℕ) := by
    rw [← zpow_natCast (2 : ℚ) s, ← zpow_add₀ (by norm_num : (2 : ℚ) ≠ 0)]
    norm_num
  have hlow : (2 : ℚ) ^ ((52 : ℤ) - s) ≤ x := by
    rw [← mul_le_mul_right hs2, hpow52]
    calc (2 : ℚ) ^ (52 : ℕ) ≤ x * 2 ^ s := by exact_mod_cast h1
    _ = x * 2 ^ s := rfl
  have hup : x < (2 : ℚ) ^ ((53 : ℤ) - s) := by
    rw [← mul_lt_mul_right hs2, hpow53]
    exact_mod_cast h2
  have hxlog1 : (52 : ℤ) - s ≤ Int.log 2 x := by
    rw [← Int.zpow_le_iff_le_log (by norm_num) hx]
    push_cast
    exact hlow
  have hxlog2 : Int.log 2 x < 53 - s := by
    rw [← Int.lt_zpow_iff_log_lt (by norm_num) hx]
    push_cast
    exact hup
  have hlog : Int.log 2 x = 52 - s := by omega
  unfold roundPos
  dsimp only
  rw [hlog, show (52 : ℤ) - (52 - (s : ℤ)) = (s : ℤ) from by ring, zpow_natCast,
    zpow_neg, zpow_natCast]
  rcases h3 with ⟨ha, hb⟩ | ⟨hab, hev⟩
  · by_cases hmy : (m : ℚ) ≤ x * 2 ^ s
    · have hfl : ⌊x * (2 : ℚ) ^ s⌋ = m := by
        rw [Int.floor_eq_iff]
        constructor
        · exact hmy
        · linarith
      rw [hfl, if_pos (by linarith)]
      rw [div_eq_mul_inv]
    · push_neg at hmy
      have hfl : ⌊x * (2 : ℚ) ^ s⌋ = m - 1 := by
        rw [Int.floor_eq_iff]
        push_cast
        constructor <;> linarith
      rw [hfl]
      have hc1 : ¬ x * 2 ^ s - ((m : ℚ) - 1) < 1 / 2 := by
        linarith
      have hc2 : (1 : ℚ) / 2 < x * 2 ^ s - ((m : ℚ) - 1) := by
        linarith
      rw [if_neg (by push_cast at hc1 ⊢; exact hc1), if_pos (by push_cast; linarith)]
      push_cast
      rw [div_eq_mul_inv]
      ring
  · rcases hab with h12 | h12
    · have hfl : ⌊x * (2 : ℚ) ^ s⌋ = m := by
        rw [Int.floor_eq_iff]
        constructor
        · linarith
        · linarith
      rw [hfl, if_neg (by linarith), if_neg (by linarith), if_pos hev]
      rw [div_eq_mul_inv]
    · have hfl : ⌊x * (2 : ℚ) ^ s⌋ = m - 1 := by
        rw [Int.floor_eq_iff]
        push_cast
        constructor <;> linarith
      rw [hfl]
      have hodd : ¬ 2 ∣ (m - 1) := by
        rcases hev with ⟨c, hc⟩
        omega
      rw [if_neg (by push_cast; linarith), if_neg (by push_cast; linarith), if_neg hodd]
      push_cast
      rw [div_eq_mul_inv]
      ring

/-- Characterization of roundQ on positive inputs. -/
lemma roundQ_eq (x : ℚ) (m : ℤ) (s : ℕ) (hx : 0 < x)
    (h1 : (2 : ℚ) ^ 52 ≤ x * 2 ^ s) (h2 : x * 2 ^ s < 2 ^ 53)
    (h3 : (-(1 / 2) < x * 2 ^ s - m ∧ x * 2 ^ s - m < 1 / 2) ∨
      ((x * 2 ^ s - m = 1 / 2 ∨ x * 2 ^ s - m = -(1 / 2)) ∧ 2 ∣ m)) :
    roundQ x = m / 2 ^ s := by
  unfold roundQ
  rw [if_neg hx.ne', if_pos hx]
  exact roundPos_eq x m s hx h1 h2 h3

/-!
Concrete binary64 evaluations for the slow-dispense scenario
pump(X, volume 1, time 100) with minSpeed the double 0.1
(3602879701896397 / 2^55 = 3602879701896397 / 36028797018963968).  Each
rounding is certified through roundQ_eq; the two subtractions that land on an
exact tie (steps 6 and 7) take the ties-to-even branch, matching the
runtime. -/

lemma fdiv_rate : fdiv (1) (100) = 5764607523034235 / 576460752303423488 :=
  (roundQ_eq ((1) / (100)) 5764607523034235 59 (by norm_num)
    (by norm_num) (by norm_num) (Or.inl ⟨by norm_num, by norm_num⟩)).trans (by norm_num)

lemma fdiv_q : fdiv (3602879701896397 / 36028797018963968) (5764607523034235 / 576460752303423488) = 10 :=
  (roundQ_eq ((3602879701896397 / 36028797018963968) / (5764607523034235 / 576460752303423488)) 5629499534213120 49 (by norm_num)
    (by norm_num) (by norm_num) (Or.inl ⟨by norm_num, by norm_num⟩)).trans (by norm_num)

lemma fsub_i : fsub (10) (1) = 9 :=
  (roundQ_eq ((10) - (1)) 5066549580791808 49 (by norm_num)
    (by norm_num) (by norm_num) (Or.inl ⟨by norm_num, by norm_num⟩)).trans (by norm_num)

lemma fsub_w : fsub (9) (0) = 9 :=
  (roundQ_eq ((9) - (0)) 5066549580791808 49 (by norm_num)
    (by norm_num) (by norm_num) (Or.inl ⟨by norm_num, by norm_num⟩)).trans (by norm_num)

lemma fsub_s1 : fsub (1) (3602879701896397 / 36028797018963968) = 8106479329266893 / 9007199254740992 :=
  (roundQ_eq ((1) - (3602879701896397 / 36028797018963968)) 8106479329266893 53 (by norm_num)
    (by norm_num) (by norm_num) (Or.inl ⟨by norm_num, by norm_num⟩)).trans (by norm_num)

lemma fsub_s2 : fsub (8106479329266893 / 9007199254740992) (3602879701896397 / 36028797018963968) = 3602879701896397 / 4503599627370496 :=
  (roundQ_eq ((8106479329266893 / 9007199254740992) - (3602879701896397 / 36028797018963968)) 7205759403792794 53 (by norm_num)
    (by norm_num) (by norm_num) (Or.inl ⟨by norm_num, by norm_num⟩)).trans (by norm_num)

lemma fsub_s3 : fsub (3602879701896397 / 4503599627370496) (3602879701896397 / 36028797018963968) = 6305039478318695 / 9007199254740992 :=
  (roundQ_eq ((3602879701896397 / 4503599627370496) - (3602879701896397 / 36028797018963968)) 6305039478318695 53 (by norm_num)
    (by norm_num) (by norm_num) (Or.inl ⟨by norm_num, by norm_num⟩)).trans (by norm_num)

lemma fsub_s4 : fsub (6305039478318695 / 9007199254740992) (3602879701896397 / 36028797018963968) = 1351079888211149 / 2251799813685248 :=
  (roundQ_eq ((6305039478318695 / 9007199254740992) - (3602879701896397 / 36028797018963968)) 5404319552844596 53 (by norm_num)
    (by norm_num) (by norm_num) (Or.inl ⟨by norm_num, by norm_num⟩)).trans (by norm_num)

lemma fsub_s5 : fsub (1351079888211149 / 2251799813685248) (3602879701896397 / 36028797018963968) = 4503599627370497 / 9007199254740992 :=
  (roundQ_eq ((1351079888211149 / 2251799813685248) - (3602879701896397 / 36028797018963968)) 4503599627370497 53 (by norm_num)
    (by norm_num) (by norm_num) (Or.inl ⟨by norm_num, by norm_num⟩)).trans (by norm_num)

lemma fsub_s6 : fsub (4503599627370497 / 9007199254740992) (3602879701896397 / 36028797018963968) = 1801439850948199 / 4503599627370496 :=
  (roundQ_eq ((4503599627370497 / 9007199254740992) - (3602879701896397 / 36028797018963968)) 7205759403792796 54 (by norm_num)
    (by norm_num) (by norm_num) (Or.inr ⟨Or.inr (by norm_num), by norm_num⟩)).trans (by norm_num)

lemma fsub_s7 : fsub (1801439850948199 / 4503599627370496) (3602879701896397 / 36028797018963968) = 2702159776422299 / 9007199254740992 :=
  (roundQ_eq ((1801439850948199 / 4503599627370496) - (3602879701896397 / 36028797018963968)) 5404319552844598 54 (by norm_num)
    (by norm_num) (by norm_num) (Or.inr ⟨Or.inr (by norm_num), by norm_num⟩)).trans (by norm_num)

lemma fsub_s8 : fsub (2702159776422299 / 9007199254740992) (3602879701896397 / 36028797018963968) = 7205759403792799 / 36028797018963968 :=
  (roundQ_eq ((2702159776422299 / 9007199254740992) - (3602879701896397 / 36028797018963968)) 7205759403792799 55 (by norm_num)
    (by norm_num) (by norm_num) (Or.inl ⟨by norm_num, by norm_num⟩)).trans (by norm_num)

lemma fsub_s9 : fsub (7205759403792799 / 36028797018963968) (3602879701896397 / 36028797018963968) = 1801439850948201 / 18014398509481984 :=
  (roundQ_eq ((7205759403792799 / 36028797018963968) - (3602879701896397 / 36028797018963968)) 7205759403792804 56 (by norm_num)
    (by norm_num) (by norm_num) (Or.inl ⟨by norm_num, by norm_num⟩)).trans (by norm_num)

lemma fsub_s10 : fsub (1801439850948201 / 18014398509481984) (3602879701896397 / 36028797018963968) = 5 / 36028797018963968 :=
  (roundQ_eq ((1801439850948201 / 18014398509481984) - (3602879701896397 / 36028797018963968)) 5629499534213120 105 (by norm_num)
    (by norm_num) (by norm_num) (Or.inl ⟨by norm_num, by norm_num⟩)).trans (by norm_num)

lemma fdiv_f : fdiv (5 / 36028797018963968) (5764607523034235 / 576460752303423488) = 125 / 9007199254740992 :=
  (roundQ_eq ((5 / 36028797018963968) / (5764607523034235 / 576460752303423488)) 8796093022208000 99 (by norm_num)
    (by norm_num) (by norm_num) (Or.inl ⟨by norm_num, by norm_num⟩)).trans (by norm_num)

/-- Shifting the base index of a mapped range by one. -/
lemma range_map_shift (g : ℕ → ℚ) (k n : ℕ) :
    (List.range (n + 1)).map (fun j => g (k + j)) =
      g k :: (List.range n).map fun j => g (k + 1 + j) := by
  rw [List.range_succ_eq_map, List.map_cons, List.map_map]
  simp only [Nat.add_zero, List.cons.injEq, true_and]
  apply List.map_congr_left
  intro j hj
  have h : k + Nat.succ j = k + 1 + j := by omega
  simp [Function.comp, h]

/-- Structure of every binary64 under-range run: some number n of full
bursts, each dispensing minSpeed for one second and yielding the float
evaluation of minSpeed/rate - 1 - execTime, followed, exactly when a
positive remainder below minSpeed is left, by one fractional dispense of
that remainder yielding its float remaining/rate wait; the remainder is the
n-fold float subtraction of minSpeed from the starting volume.  The run may
also stop early when the fuel bound is hit, in which case there is no
fractional tail. -/
lemma burstLoopF_shape (minSp rate : ℚ) (ex : ℕ → ℚ) :
    ∀ (fuel k : ℕ) (remaining : ℚ),
      ∃ n rem tailW tailC,
        burstLoopF minSp rate ex fuel k remaining =
          (((List.range n).map fun j => fsub (fsub (fdiv minSp rate) 1) (ex (k + j))) ++ tailW,
            List.replicate n ⟨minSp, some 1⟩ ++ tailC) ∧
        rem = (fun x => fsub x minSp)^[n] remaining ∧
        ((tailW = [] ∧ tailC = []) ∨
          (0 < rem ∧ rem < minSp ∧ tailW = [fdiv rem rate] ∧ tailC = [⟨rem, none⟩])) := by
  intro fuel
  induction fuel with
  | zero =>
    intro k remaining
    refine ⟨0, remaining, [], [], ?_, ?_, Or.inl ⟨rfl, rfl⟩⟩
    · simp [burstLoopF]
    · simp
  | succ fuel ih =>
    intro k remaining
    by_cases h1 : minSp ≤ remaining
    · obtain ⟨n, rem, tailW, tailC, heq, hrem, htail⟩ := ih (k + 1) (fsub remaining minSp)
      refine ⟨n + 1, rem, tailW, tailC, ?_, ?_, htail⟩
      · have hshift : (List.range (n + 1)).map
              (fun j => fsub (fsub (fdiv minSp rate) 1) (ex (k + j))) =
            fsub (fsub (fdiv minSp rate) 1) (ex k) ::
              (List.range n).map (fun j => fsub (fsub (fdiv minSp rate) 1) (ex (k + 1 + j))) :=
          range_map_shift (fun t => fsub (fsub (fdiv minSp rate) 1) (ex t)) k n
        simp only [burstLoopF, if_pos h1, heq]
        rw [hshift, List.replicate_succ, List.cons_append, List.cons_append]
      · rw [Function.iterate_succ_apply]
        exact hrem
    · by_cases h2 : 0 < remaining
      · refine ⟨0, remaining, [fdiv remaining rate], [⟨remaining, none⟩], ?_, ?_,
          Or.inr ⟨h2, lt_of_not_le h1, rfl, rfl⟩⟩
        · simp [burstLoopF, if_neg h1, if_pos h2]
        · simp
      · refine ⟨0, remaining, [], [], ?_, ?_, Or.inl ⟨rfl, rfl⟩⟩
        · simp [burstLoopF, if_neg h1, if_neg h2]
        · simp


/-- Claim C2: pump under-range burst scheduling over binary64 arithmetic.
General part: every under-range run of the binary64 pump model dispenses in
one-second bursts of burstVolume = minSpeed, every full-burst pull yields
the float evaluation of minSpeed/rate - 1 - execTime, and the final
fractional pull, present exactly when a positive float remainder below
minSpeed is left, yields the float evaluation of remaining/rate.  Scenario
part: pump(X, volume 1, time 100) with minSpeed the double 0.1 and zero
measured exec times yields ten Wait(9) pulls (fl(0.1)/fl(0.01) is exactly
10, so each burst wait is exactly 10 - 1 - 0 = 9, within the 0.001 relative
tolerance of Wait of about 9), then one Wait(125/2^53), about 1.4e-14,
positive and below the 1e-12 tolerance of Wait of about 0 — the residue of
ten binary64 subtractions of fl(0.1) from 1.0 is 5/2^55, not zero — and
then Done on the pull after it, exactly as the reference test
test_pumps_slow_dispense records. -/
theorem pump_under_range_burst_scheduling :
    (∀ (fuel : ℕ) (m M v t md : ℚ) (ex : ℕ → ℚ) (r : PumpRun),
      fdiv v t < m → fdiv v t ≤ M →
      pumpRunF fuel (some ⟨m, M⟩) v (some t) md ex = .ok r →
      ∃ n rem tailW tailC,
        r.waits = ((List.range n).map fun j =>
            fsub (fsub (fdiv m (fdiv v t)) 1) (ex j)) ++ tailW ∧
        r.calls = List.replicate n ⟨m, some 1⟩ ++ tailC ∧
        rem = (fun x => fsub x m)^[n] v ∧
        ((tailW = [] ∧ tailC = []) ∨
          (0 < rem ∧ rem < m ∧ tailW = [fdiv rem (fdiv v t)] ∧
            tailC = [⟨rem, none⟩]))) ∧
    pumpRunF 20 (some ⟨fl01, 1⟩) 1 (some 100) 0 (fun _ => 0) =
      .ok ⟨List.replicate 10 9 ++ [125 / 9007199254740992],
           List.replicate 10 ⟨fl01, some 1⟩ ++ [⟨5 / 36028797018963968, none⟩]⟩ ∧
    (0 < (125 : ℚ) / 9007199254740992 ∧
      (125 : ℚ) / 9007199254740992 < 1 / 10 ^ 12) ∧
    pullAt (taskYields (List.replicate 10 9 ++ [125 / 9007199254740992])) 11 =
      .ok WS.done := by
  refine ⟨?_, ?_, ⟨by norm_num, by norm_num⟩, ?_⟩
  · intro fuel m M v t md ex r h1 h2 h
    unfold pumpRunF at h
    dsimp only at h
    rw [if_neg (not_lt.mpr h2), if_neg (not_le.mpr h1)] at h
    simp only [Except.ok.injEq] at h
    subst h
    obtain ⟨n, rem, tailW, tailC, heq, hrem, htail⟩ :=
      burstLoopF_shape m (fdiv v t) ex fuel 0 v
    refine ⟨n, rem, tailW, tailC, ?_, ?_, hrem, htail⟩
    · show (burstLoopF m (fdiv v t) ex fuel 0 v).1 = _
      rw [heq]
      simp only [Nat.zero_add]
    · show (burstLoopF m (fdiv v t) ex fuel 0 v).2 = _
      rw [heq]
  · show pumpRunF 20 (some ⟨3602879701896397 / 36028797018963968, 1⟩) 1
        (some 100) 0 (fun _ => 0) =
      .ok ⟨List.replicate 10 9 ++ [125 / 9007199254740992],
           List.replicate 10 ⟨3602879701896397 / 36028797018963968, some 1⟩ ++
             [⟨5 / 36028797018963968, none⟩]⟩
    norm_num [pumpRunF, burstLoopF, fdiv_rate, fdiv_q, fsub_i, fsub_w, fsub_s1, fsub_s2, fsub_s3, fsub_s4, fsub_s5, fsub_s6, fsub_s7, fsub_s8, fsub_s9, fsub_s10, fdiv_f, List.replicate]
  · rfl

/-- Witness for pump_under_range_burst_scheduling: the general shape
conjunct applied to the scenario run itself, with both branch hypotheses
discharged concretely. -/
theorem pump_under_range_burst_scheduling_witness :
    fdiv 1 100 < fl01 ∧ fdiv 1 100 ≤ 1 ∧
    ∃ n rem tailW tailC,
      (List.replicate 10 (9 : ℚ) ++ [125 / 9007199254740992] : List ℚ) =
        ((List.range n).map fun _ =>
          fsub (fsub (fdiv fl01 (fdiv 1 100)) 1) 0) ++ tailW ∧
      (List.replicate 10 (⟨fl01, some 1⟩ : DispenseCall) ++
          [⟨5 / 36028797018963968, none⟩]) =
        List.replicate n ⟨fl01, some 1⟩ ++ tailC ∧
      rem = (fun x => fsub x fl01)^[n] 1 ∧
      ((tailW = [] ∧ tailC = []) ∨
        (0 < rem ∧ rem < fl01 ∧ tailW = [fdiv rem (fdiv 1 100)] ∧
          tailC = [⟨rem, none⟩])) := by
  refine ⟨?_, ?_, ?_⟩
  · rw [fdiv_rate]
    norm_num [fl01]
  · rw [fdiv_rate]
    norm_num
  · exact pump_under_range_burst_scheduling.1 20 fl01 1 1 100 0 (fun _ => 0)
      ⟨List.replicate 10 9 ++ [125 / 9007199254740992],
       List.replicate 10 ⟨fl01, some 1⟩ ++ [⟨5 / 36028797018963968, none⟩]⟩
      (by rw [fdiv_rate]; norm_num [fl01]) (by rw [fdiv_rate]; norm_num)
      pump_under_range_burst_scheduling.2.1
